import Mathlib

/-!
Verification of the floor-plan generation engine of `floor_plan_generator.py`
(classes `Room` and `FloorPlanGenerator`), shallowly embedded in Lean 4.

Modelling conventions, chosen to mirror the Python source exactly:

* Python `float` quantities (`sqft`, aspect ratios, the `sqft -> mm2`
  conversion constant, scale factors) are modelled with exact rationals `ℚ`;
  every numeric literal of the source is exactly representable.
* Python `int` quantities that the source keeps non-negative by construction
  (room `width`, `length`, positions `x`, `y`, window counts) are `ℕ`;
  signed requirement fields (`total_sqft`, `bedrooms`, `garage_cars`) are `ℤ`
  and `bathrooms` is `ℚ`, so negative inputs can be analysed.
* `int(f)` applied by Python to a non-negative float is `Int.floor` followed
  by `Int.toNat`; applied to a possibly negative float it truncates toward
  zero (`pyInt` below).
* `int(math.sqrt q)` for a rational `0 ≤ q` equals `Nat.sqrt ⌊q⌋`: both are
  the unique `k` with `k^2 ≤ q < (k+1)^2`.  The definitions below use the
  `Nat.sqrt` form so that they are executable; the bridging theorem
  `natSqrt_floor_eq_floor_sqrt` proves it equal to `⌊Real.sqrt q⌋`.
  Likewise `int(w * math.sqrt q) = Nat.sqrt ⌊w^2 * q⌋` for `w : ℕ`.
* A Python runtime exception (`ZeroDivisionError` from `x / 0`,
  `ValueError` from `math.sqrt` of a negative number) is modelled by the
  fallible function returning `none`.
* Python `sorted(key=..., reverse=True)` is a stable descending sort; it is
  modelled by `List.insertionSort` with the reflexive descending relation
  `roomGE` (ties keep emission order), which is stable and therefore
  extensionally equal to the source's Timsort.
-/

/-- Python class `HouseRequirements` from `ai_house_parser.py`: the input
record of the generator.  Field names follow the source. -/
structure HouseRequirements where
  total_sqft : ℤ
  style : String
  bedrooms : ℤ
  bathrooms : ℚ
  garage_cars : ℤ
  has_attic : Bool
  has_basement : Bool
  special_rooms : List String
  bathroom_types : List String
  stories : ℤ
deriving DecidableEq

/-- Defaults set by `HouseRequirements.__init__`. -/
def defaultRequirements : HouseRequirements :=
  { total_sqft := 2000, style := "Ranch", bedrooms := 3, bathrooms := 2,
    garage_cars := 2, has_attic := false, has_basement := false,
    special_rooms := [], bathroom_types := [], stories := 1 }

/-- Python class `Room`.  The constructor sets `x = y = width = length = 0`
and `windows = 0`; the `doors` list of the source is initialised empty and
never used by the generator, so it is omitted. -/
structure Room where
  name : String
  sqft : ℚ
  room_type : String
  x : ℕ := 0
  y : ℕ := 0
  width : ℕ := 0
  length : ℕ := 0
  windows : ℕ := 0
deriving DecidableEq

/-- The `room_sizes` catalog of `FloorPlanGenerator.__init__`:
category -> nominal square footage. -/
def room_sizes : String → Option ℕ
  | "master_bedroom" => some 300
  | "bedroom" => some 150
  | "bathroom" => some 40
  | "jack_and_jill_bathroom" => some 80
  | "master_bathroom" => some 100
  | "half_bathroom" => some 25
  | "kitchen" => some 200
  | "living_room" => some 300
  | "dining_room" => some 150
  | "garage" => some 250
  | "gameroom" => some 250
  | "den" => some 150
  | "office" => some 120
  | "study" => some 120
  | "library" => some 150
  | "media_room" => some 200
  | "home_theater" => some 300
  | "gym" => some 200
  | "mudroom" => some 50
  | "laundry" => some 50
  | "pantry" => some 30
  | "hallway" => some 50
  | "foyer" => some 80
  | _ => none

/-- Python `int()` applied to a float: truncation toward zero. -/
def pyInt (q : ℚ) : ℤ := if q < 0 then ⌈q⌉ else ⌊q⌋

/-- Method `_add_bedrooms`: one master bedroom (2 windows) plus
`range(bedrooms - 1)` numbered bedrooms (1 window each); a negative or zero
count yields an empty `range`. -/
def add_bedrooms (bedrooms : ℤ) : List Room :=
  { name := "Master Bedroom", sqft := 300, room_type := "master_bedroom", windows := 2 } ::
    (List.range (bedrooms - 1).toNat).map fun i =>
      { name := "Bedroom " ++ toString (i + 2), sqft := 150, room_type := "bedroom", windows := 1 }

/-- Method `_add_bathrooms`.  `bathroom_count = int(bathrooms)`;
`half_bath_count = 1` iff `bathrooms % 1 >= 0.5` (Python `%` with positive
modulus returns the non-negative remainder `bathrooms - ⌊bathrooms⌋`).
One master bathroom is always emitted and the count decremented; a jack and
jill bathroom is emitted iff requested and the remaining count is positive;
`range` over the remaining count emits the numbered bathrooms. -/
def add_bathrooms (bathrooms : ℚ) (bathroom_types : List String) : List Room :=
  let bc : ℤ := pyInt bathrooms - 1
  let half_bath_count : ℕ := if (1 : ℚ)/2 ≤ bathrooms - ⌊bathrooms⌋ then 1 else 0
  let bathroom_count : ℤ := if "jack_and_jill" ∈ bathroom_types ∧ 0 < bc then bc - 1 else bc
  { name := "Master Bathroom", sqft := 100, room_type := "master_bathroom", windows := 1 } ::
    ((if "jack_and_jill" ∈ bathroom_types ∧ 0 < bc then
        [{ name := "Jack and Jill Bathroom", sqft := 80,
           room_type := "jack_and_jill_bathroom", windows := 1 }]
      else []) ++
     (List.range bathroom_count.toNat).map (fun i =>
       { name := "Bathroom " ++ toString (i + 2), sqft := 40,
         room_type := "bathroom", windows := 1 }) ++
     (List.range half_bath_count).map (fun _ =>
       { name := "Powder Room", sqft := 25, room_type := "half_bathroom", windows := 0 }))

/-- Method `_add_kitchen`: kitchen (2 windows) and dining room (1 window). -/
def add_kitchen : List Room :=
  [{ name := "Kitchen", sqft := 200, room_type := "kitchen", windows := 2 },
   { name := "Dining Room", sqft := 150, room_type := "dining_room", windows := 1 }]

/-- Method `_add_living_areas`: one living room (3 windows). -/
def add_living_areas : List Room :=
  [{ name := "Living Room", sqft := 300, room_type := "living_room", windows := 3 }]

/-- Method `_add_garage`: one garage of `250 * garage_cars` sqft when the
capacity is positive. -/
def add_garage (garage_cars : ℤ) : List Room :=
  if 0 < garage_cars then
    [{ name := toString garage_cars ++ " Car Garage", sqft := (250 * garage_cars : ℤ),
       room_type := "garage", windows := 0 }]
  else []

/-- Python `str.title()` restricted to the lowercase ASCII tags of the
catalog: capitalize each space-separated word. -/
def pyTitle (s : String) : String :=
  String.intercalate (" ") (((s.splitOn (" ")).map String.capitalize))

/-- Method `_add_special_rooms`: every requested tag present in the catalog
yields one room (1 window); unknown tags are skipped. -/
def add_special_rooms (special : List String) : List Room :=
  special.filterMap fun t =>
    (room_sizes t).map fun s =>
      { name := pyTitle (t.replace ("_") (" ")), sqft := (s : ℚ), room_type := t, windows := 1 }

/-- Method `_add_circulation_spaces`: always a foyer; a hallway when
`bedrooms >= 3`. -/
def add_circulation_spaces (bedrooms : ℤ) : List Room :=
  { name := "Foyer", sqft := 80, room_type := "foyer", windows := 0 } ::
    (if 3 ≤ bedrooms then
      [{ name := "Hallway", sqft := 50, room_type := "hallway", windows := 0 }]
    else [])

/-- Room inventory in the emission order of `generate_floor_plan`. -/
def buildInventory (req : HouseRequirements) : List Room :=
  add_bedrooms req.bedrooms ++
  add_bathrooms req.bathrooms req.bathroom_types ++
  add_kitchen ++
  add_living_areas ++
  add_garage req.garage_cars ++
  add_special_rooms req.special_rooms ++
  add_circulation_spaces req.bedrooms

/-- Aspect-ratio policy of `_calculate_room_dimensions` (length / width). -/
def roomAspect (room_type : String) : ℚ :=
  if room_type = "garage" then 3/2
  else if room_type = "hallway" ∨ room_type = "mudroom" then 3
  else if room_type = "master_bedroom" ∨ room_type = "living_room" then 6/5
  else 13/10

/-- The conversion constant of the source: 1 sqft = 92903.04 mm². -/
def sqft_to_mm2 : ℚ := 9290304/100

/-- Dimension computation of `_calculate_room_dimensions` for one room:
`width = int(math.sqrt(area_mm2 / ar))`, `length = int(area_mm2 / width)`.
A negative area makes `math.sqrt` raise (`none`); `width = 0` makes the
length computation divide by zero (`none`).  `int(math.sqrt q)` is written
as `Nat.sqrt ⌊q⌋` (see the header). -/
def calcDims (sqft ar : ℚ) : Option (ℕ × ℕ) :=
  let area_mm2 : ℚ := sqft * sqft_to_mm2
  if area_mm2 / ar < 0 then none
  else
    let w : ℕ := Nat.sqrt (⌊area_mm2 / ar⌋).toNat
    if w = 0 then none
    else some (w, (⌊area_mm2 / (w : ℚ)⌋).toNat)

/-- Dimension pass applied to one room. -/
def calcRoom (r : Room) : Option Room :=
  (calcDims r.sqft (roomAspect r.room_type)).map fun wl =>
    { r with width := wl.1, length := wl.2 }

/-- Method `_calculate_room_dimensions` over the room list; the loop stops
at the first raising room. -/
def calculate_room_dimensions : List Room → Option (List Room)
  | [] => some []
  | r :: rs => (calcRoom r).bind fun r2 =>
      (calculate_room_dimensions rs).map fun rest => r2 :: rest

/-- Sum of the nominal square footages, `sum(r.sqft for r in rooms)`. -/
def sumSqft (rooms : List Room) : ℚ := (rooms.map Room.sqft).sum

/-- Descending-by-`sqft` ordering used by the packer's
`sorted(self.rooms, key=lambda r: r.sqft, reverse=True)`. -/
def roomGE (a b : Room) : Prop := b.sqft ≤ a.sqft

instance : DecidableRel roomGE := fun a b => inferInstanceAs (Decidable (b.sqft ≤ a.sqft))

instance : IsTotal Room roomGE := ⟨fun a b => le_total b.sqft a.sqft⟩

instance : IsTrans Room roomGE := ⟨fun _ _ _ hab hbc => le_trans hbc hab⟩

/-- Stable descending sort by nominal `sqft`, modelling Python `sorted`. -/
def sortRooms (rooms : List Room) : List Room := List.insertionSort roomGE rooms

/-- Scaled dimension `int(d * scale)` with `scale = math.sqrt (t / s)`:
written as `Nat.sqrt ⌊d^2 * t / s⌋` (see the header). -/
def scaledDim (d : ℕ) (t : ℤ) (s : ℚ) : ℕ :=
  Nat.sqrt (⌊((d : ℚ) * (d : ℚ) * (t : ℚ)) / s⌋).toNat

/-- Scaling step of `_arrange_rooms`: when `total_sqft > total_area` every
room's width and length are multiplied by `math.sqrt(total_sqft/total_area)`
and truncated; `math.sqrt` raises when the quotient is negative and the
division raises when `total_area = 0` (`none`). -/
def scale_step (total_sqft : ℤ) (total_area : ℚ) (rooms : List Room) : Option (List Room) :=
  if total_area < (total_sqft : ℚ) then
    if total_area = 0 ∨ (total_sqft : ℚ) / total_area < 0 then none
    else some (rooms.map fun r =>
      { r with width := scaledDim r.width total_sqft total_area,
               length := scaledDim r.length total_sqft total_area })
  else some rooms

/-- Row-width bound of `_arrange_rooms`:
`int(math.sqrt(total_sqft * 92903.04) * 1.3)`; `math.sqrt` raises for a
negative argument (`none`).  Since `1.3 = math.sqrt 1.69`, the value is
`⌊Real.sqrt (169/100 * total_sqft * 92903.04)⌋`, written with `Nat.sqrt`. -/
def maxRowWidth (total_sqft : ℤ) : Option ℕ :=
  if (total_sqft : ℚ) * sqft_to_mm2 < 0 then none
  else some (Nat.sqrt (⌊(169/100 : ℚ) * ((total_sqft : ℚ) * sqft_to_mm2)⌋).toNat)

/-- Shelf-packing loop of `_arrange_rooms`, carrying the cursor
`(current_x, current_y)` and `row_height`.  A room opens a new row when
`current_x + room.length > max_width` and `current_x > 0`. -/
def packAux (maxW : ℕ) : List Room → ℕ → ℕ → ℕ → List Room
  | [], _, _, _ => []
  | r :: rs, cx, cy, rh =>
    if maxW < cx + r.length ∧ 0 < cx then
      { r with x := 0, y := cy + rh + 200 } ::
        packAux maxW rs (r.length + 200) (cy + rh + 200) r.width
    else
      { r with x := cx, y := cy } ::
        packAux maxW rs (cx + r.length + 200) cy (max rh r.width)

/-- Pack a room list starting from the origin with empty row. -/
def packRooms (maxW : ℕ) (rooms : List Room) : List Room :=
  packAux maxW rooms 0 0 0

/-- Method `_arrange_rooms`: early return on an empty list; otherwise sort,
scale, compute the row bound and pack.  The source mutates the shared room
objects; the rooms are returned here in the packing (sorted) order, each
carrying exactly the fields the source assigns to it. -/
def arrange_rooms (total_sqft : ℤ) (rooms : List Room) : Option (List Room) :=
  if rooms.isEmpty then some rooms
  else
    let sorted_rooms := sortRooms rooms
    let total_area := sumSqft rooms
    (scale_step total_sqft total_area sorted_rooms).bind fun scaled =>
      (maxRowWidth total_sqft).map fun max_width =>
        packRooms max_width scaled

/-- Method `generate_floor_plan`: build the inventory, assign dimensions,
arrange.  `none` models an uncaught Python exception. -/
def generate_floor_plan (req : HouseRequirements) : Option (List Room) :=
  (calculate_room_dimensions (buildInventory req)).bind fun dimensioned =>
    arrange_rooms req.total_sqft dimensioned

/-- Maximum of a list of naturals (equals Python `max` on a non-empty
list). -/
def listMax (l : List ℕ) : ℕ := l.foldr max 0

/-- Method `get_house_dimensions`: default `(10000, 8000)` on an empty room
list, otherwise the maximal extents plus a 1000 mm margin. -/
def get_house_dimensions (rooms : List Room) : ℕ × ℕ :=
  if rooms.isEmpty then (10000, 8000)
  else (listMax (rooms.map fun r => r.x + r.length) + 1000,
        listMax (rooms.map fun r => r.y + r.width) + 1000)

/-- Count of rooms of a given category. -/
def countType (rooms : List Room) (t : String) : ℕ :=
  (rooms.filter fun r => r.room_type = t).length

/-! ### Bridging the executable square roots to `Real.sqrt` -/

/-- Characterisation used to evaluate `Nat.sqrt` at concrete arguments. -/
theorem natSqrt_eq_of {m k : ℕ} (h1 : k * k ≤ m) (h2 : m < (k + 1) * (k + 1)) :
    Nat.sqrt m = k :=
  le_antisymm (Nat.lt_succ_iff.mp (Nat.sqrt_lt.mpr h2)) (Nat.le_sqrt.mpr h1)

/-- For a non-negative rational `q`, the executable `Nat.sqrt ⌊q⌋.toNat`
equals `⌊Real.sqrt q⌋`, i.e. the Python value `int(math.sqrt(q))`. -/
theorem natSqrt_floor_eq_floor_sqrt (q : ℚ) (hq : 0 ≤ q) :
    ((Nat.sqrt (⌊q⌋).toNat : ℤ)) = ⌊Real.sqrt ((q : ℝ))⌋ := by
  set m : ℕ := (⌊q⌋).toNat with hm
  set k : ℕ := Nat.sqrt m with hk
  have hfl : (0 : ℤ) ≤ ⌊q⌋ := Int.floor_nonneg.mpr hq
  have hmz : ((m : ℤ)) = ⌊q⌋ := by rw [hm]; exact Int.toNat_of_nonneg hfl
  have hmq : ((m : ℚ)) ≤ q := by
    have h1 : ((m : ℤ) : ℚ) ≤ q := by rw [hmz]; exact Int.floor_le q
    exact_mod_cast h1
  have hqm : q < (m : ℚ) + 1 := by
    have h1 : q < ((⌊q⌋ : ℤ) : ℚ) + 1 := Int.lt_floor_add_one q
    rw [← hmz] at h1; exact_mod_cast h1
  have hkk : k * k ≤ m := by
    have := Nat.sqrt_le' m
    rw [pow_two] at this
    rw [hk]; exact this
  have hkm : m < (k + 1) * (k + 1) := by
    have := Nat.lt_succ_sqrt' m
    rw [pow_two, Nat.succ_eq_add_one] at this
    rw [hk]; exact this
  have hle : ((k : ℝ)) ≤ Real.sqrt ((q : ℝ)) := by
    rw [Real.le_sqrt (by positivity) (by exact_mod_cast hq)]
    have h1 : ((k * k : ℕ) : ℝ) ≤ ((m : ℕ) : ℝ) := by exact_mod_cast hkk
    have hmr : ((m : ℝ)) ≤ ((q : ℚ) : ℝ) := by exact_mod_cast hmq
    push_cast at h1 ⊢
    nlinarith
  have hlt : Real.sqrt ((q : ℝ)) < (k : ℝ) + 1 := by
    rw [Real.sqrt_lt' (by positivity)]
    have h1 : ((m : ℝ)) + 1 ≤ (((k + 1) * (k + 1) : ℕ) : ℝ) := by exact_mod_cast hkm
    have h2 : ((q : ℚ) : ℝ) < ((m : ℝ)) + 1 := by exact_mod_cast hqm
    push_cast at h1 ⊢
    nlinarith
  have : ⌊Real.sqrt ((q : ℝ))⌋ = ((k : ℤ)) := by
    rw [Int.floor_eq_iff]
    constructor
    · exact_mod_cast hle
    · exact_mod_cast hlt
  rw [this]

/-- Aspect ratios are positive. -/
theorem roomAspect_pos (c : String) : 0 < roomAspect c := by
  unfold roomAspect
  repeat' split
  all_goals norm_num

/-- Aspect ratios are at most 3. -/
theorem roomAspect_le_three (c : String) : roomAspect c ≤ 3 := by
  unfold roomAspect
  repeat' split
  all_goals norm_num

/-- Successful evaluation of `calcDims` on a positive integer square
footage, together with the rounding bound. -/
theorem calcDims_spec (n : ℕ) (hn : 0 < n) (c : String) :
    ∃ w l : ℕ, calcDims ((n : ℚ)) (roomAspect c) = some (w, l) ∧
      ((w : ℤ)) = ⌊Real.sqrt ((((n : ℚ) * sqft_to_mm2 / roomAspect c : ℚ) : ℝ))⌋ ∧
      ((l : ℤ)) = ⌊(n : ℚ) * sqft_to_mm2 / ((w : ℚ))⌋ ∧
      ((w : ℚ)) * ((l : ℚ)) ≤ (n : ℚ) * sqft_to_mm2 ∧
      (n : ℚ) * sqft_to_mm2 - ((w : ℚ)) * ((l : ℚ)) < ((w : ℚ)) := by
  have har := roomAspect_pos c
  have har3 := roomAspect_le_three c
  set ar := roomAspect c
  set A : ℚ := (n : ℚ) * sqft_to_mm2 with hA
  have hn1 : (1 : ℚ) ≤ (n : ℚ) := by exact_mod_cast hn
  have hAge : sqft_to_mm2 ≤ A := by
    rw [hA]; nlinarith [show (0:ℚ) < sqft_to_mm2 by norm_num [sqft_to_mm2]]
  have hApos : 0 < A := lt_of_lt_of_le (by norm_num [sqft_to_mm2]) hAge
  have hq_ge : (1 : ℚ) ≤ A / ar := by
    rw [le_div_iff har]
    have : (1 : ℚ) * ar ≤ 3 := by linarith
    have h2 : (3 : ℚ) ≤ sqft_to_mm2 := by norm_num [sqft_to_mm2]
    linarith
  have hqpos : 0 < A / ar := lt_of_lt_of_le one_pos hq_ge
  have hfl1 : (1 : ℤ) ≤ ⌊A / ar⌋ := Int.le_floor.mpr (by exact_mod_cast hq_ge)
  have htn1 : 1 ≤ (⌊A / ar⌋).toNat := by omega
  set w : ℕ := Nat.sqrt ((⌊A / ar⌋).toNat) with hw
  have hwpos : 0 < w := by
    rw [hw]; exact Nat.le_sqrt.mpr (by omega)
  have hwQ : (0 : ℚ) < ((w : ℚ)) := by exact_mod_cast hwpos
  have hAw : 0 ≤ A / ((w : ℚ)) := le_of_lt (div_pos hApos hwQ)
  have hflw : (0 : ℤ) ≤ ⌊A / ((w : ℚ))⌋ := Int.floor_nonneg.mpr hAw
  set l : ℕ := (⌊A / ((w : ℚ))⌋).toNat with hl
  have hlz : ((l : ℤ)) = ⌊A / ((w : ℚ))⌋ := by rw [hl]; exact Int.toNat_of_nonneg hflw
  refine ⟨w, l, ?_, ?_, hlz, ?_, ?_⟩
  · show calcDims ((n : ℚ)) ar = some (w, l)
    unfold calcDims
    rw [← hA, if_neg (by push_neg; exact le_of_lt hqpos), ← hw]
    rw [if_neg (by omega)]
  · rw [hw]; exact natSqrt_floor_eq_floor_sqrt (A / ar) (le_of_lt hqpos)
  · have h1 : ((l : ℚ)) ≤ A / ((w : ℚ)) := by
      have : ((⌊A / ((w : ℚ))⌋ : ℤ) : ℚ) ≤ A / ((w : ℚ)) := Int.floor_le _
      rw [← hlz] at this; exact_mod_cast this
    have := (le_div_iff hwQ).mp h1
    linarith
  · have h2 : A / ((w : ℚ)) - 1 < ((l : ℚ)) := by
      have := Int.sub_one_lt_floor (A / ((w : ℚ)))
      rw [← hlz] at this; exact_mod_cast this
    have h3 : A / ((w : ℚ)) < ((l : ℚ)) + 1 := by linarith
    have := (div_lt_iff hwQ).mp h3
    nlinarith

/-- Claim C1: for every room with positive (integer) target area the
Dimension Calculator sets `width = floor(sqrt(target_area*92903.04 / r))`
and `length = floor(target_area*92903.04 / width)`, with the aspect ratio
`r = 1.5` for garage, `3.0` for hallway or mudroom, `1.2` for
master_bedroom or living_room and `1.3` for every other category;
consequently `width*length ≤ area_mm2` and
`area_mm2 - width*length < width`. -/
theorem claim_C1 :
    (roomAspect ("garage") = 3/2 ∧ roomAspect ("hallway") = 3 ∧
     roomAspect ("mudroom") = 3 ∧ roomAspect ("master_bedroom") = 6/5 ∧
     roomAspect ("living_room") = 6/5 ∧
     ∀ c : String,
       c ∉ ["garage", "hallway", "mudroom", "master_bedroom", "living_room"] →
       roomAspect c = 13/10) ∧
    ∀ (n : ℕ), 0 < n → ∀ (c : String),
      ∃ w l : ℕ, calcDims ((n : ℚ)) (roomAspect c) = some (w, l) ∧
        ((w : ℤ)) = ⌊Real.sqrt ((((n : ℚ) * sqft_to_mm2 / roomAspect c : ℚ) : ℝ))⌋ ∧
        ((l : ℤ)) = ⌊(n : ℚ) * sqft_to_mm2 / ((w : ℚ))⌋ ∧
        ((w : ℚ)) * ((l : ℚ)) ≤ (n : ℚ) * sqft_to_mm2 ∧
        (n : ℚ) * sqft_to_mm2 - ((w : ℚ)) * ((l : ℚ)) < ((w : ℚ)) := by
  refine ⟨⟨?_, ?_, ?_, ?_, ?_, ?_⟩, fun n hn c => calcDims_spec n hn c⟩
  · unfold roomAspect; rw [if_pos rfl]
  · unfold roomAspect; rw [if_neg (by decide), if_pos (by decide)]
  · unfold roomAspect; rw [if_neg (by decide), if_pos (by decide)]
  · unfold roomAspect; rw [if_neg (by decide), if_neg (by decide), if_pos (by decide)]
  · unfold roomAspect; rw [if_neg (by decide), if_neg (by decide), if_pos (by decide)]
  · intro c hc
    simp only [List.mem_cons, List.not_mem_nil, or_false, not_or] at hc
    obtain ⟨h1, h2, h3, h4, h5⟩ := hc
    unfold roomAspect
    rw [if_neg h1, if_neg (by push_neg; exact ⟨h2, h3⟩), if_neg (by push_neg; exact ⟨h4, h5⟩)]

/-- Witness for claim C1 at `target_area = 300`, category `master_bedroom`. -/
theorem claim_C1_witness :
    ∃ w l : ℕ, calcDims ((300 : ℚ)) (roomAspect ("master_bedroom")) = some (w, l) ∧
      ((w : ℤ)) = ⌊Real.sqrt ((((300 : ℚ) * sqft_to_mm2 / roomAspect ("master_bedroom") : ℚ) : ℝ))⌋ ∧
      ((l : ℤ)) = ⌊(300 : ℚ) * sqft_to_mm2 / ((w : ℚ))⌋ ∧
      ((w : ℚ)) * ((l : ℚ)) ≤ (300 : ℚ) * sqft_to_mm2 ∧
      (300 : ℚ) * sqft_to_mm2 - ((w : ℚ)) * ((l : ℚ)) < ((w : ℚ)) := by
  have h := claim_C1.2 300 (by decide) ("master_bedroom")
  exact_mod_cast h

/-! ### Claim C2: the packer's scaling step -/

/-- The executable scaled dimension equals the truncation of the exact
product `d * sqrt(total_sqft / total_area)`. -/
theorem scaledDim_eq_floor (d : ℕ) (t : ℤ) (s : ℚ) (hs : 0 < s) (ht : 0 ≤ t) :
    scaledDim d t s =
      (⌊((d : ℝ)) * Real.sqrt ((((t : ℚ) / s : ℚ) : ℝ))⌋).toNat := by
  have htq : (0 : ℚ) ≤ ((t : ℚ)) := by exact_mod_cast ht
  have hq : (0 : ℚ) ≤ ((d : ℚ) * (d : ℚ) * ((t : ℚ))) / s := by positivity
  have hz := natSqrt_floor_eq_floor_sqrt (((d : ℚ) * (d : ℚ) * ((t : ℚ))) / s) hq
  have hsq : Real.sqrt (((((d : ℚ) * (d : ℚ) * ((t : ℚ))) / s : ℚ) : ℝ)) =
      ((d : ℝ)) * Real.sqrt ((((t : ℚ) / s : ℚ) : ℝ)) := by
    push_cast
    rw [show ((d : ℝ)) * ((d : ℝ)) * ((t : ℝ)) / ((s : ℝ)) =
        ((d : ℝ)) ^ 2 * (((t : ℝ)) / ((s : ℝ))) by ring]
    rw [Real.sqrt_mul (by positivity) _, Real.sqrt_sq (by positivity)]
  rw [hsq] at hz
  unfold scaledDim
  rw [← hz, Int.toNat_natCast]

/-- Claim C2, amended: when `total_target_area` exceeds the nominal sum,
every width and length becomes the floor of its product with
`scale = sqrt(total_target_area / sum)` (integer truncation, not the exact
product); when it does not exceed the sum, the rooms are unchanged. -/
theorem claim_C2_amended (total_sqft : ℤ) (rooms : List Room)
    (hpos : 0 < sumSqft rooms) :
    (sumSqft rooms < ((total_sqft : ℚ)) →
      scale_step total_sqft (sumSqft rooms) rooms = some (rooms.map fun r =>
        { r with
          width := (⌊((r.width : ℝ)) *
            Real.sqrt (((((total_sqft : ℚ)) / sumSqft rooms : ℚ) : ℝ))⌋).toNat,
          length := (⌊((r.length : ℝ)) *
            Real.sqrt (((((total_sqft : ℚ)) / sumSqft rooms : ℚ) : ℝ))⌋).toNat })) ∧
    (((total_sqft : ℚ)) ≤ sumSqft rooms →
      scale_step total_sqft (sumSqft rooms) rooms = some rooms) := by
  constructor
  · intro hlt
    have ht : (0 : ℤ) ≤ total_sqft := by
      have : (0 : ℚ) < ((total_sqft : ℚ)) := lt_trans hpos hlt
      exact_mod_cast le_of_lt this
    unfold scale_step
    rw [if_pos hlt, if_neg ?_]
    · congr 1
      apply List.map_congr_left
      intro r _
      rw [scaledDim_eq_floor r.width total_sqft (sumSqft rooms) hpos ht,
          scaledDim_eq_floor r.length total_sqft (sumSqft rooms) hpos ht]
    · push_neg
      constructor
      · exact ne_of_gt hpos
      · exact div_nonneg (by exact_mod_cast ht) (le_of_lt hpos)
  · intro hle
    unfold scale_step
    rw [if_neg (by push_neg; exact hle)]

/-- Concrete dimensioned room used to refute claim C2 as stated. -/
def c2room : Room :=
  { name := "Example", sqft := 2500, room_type := "living_room",
    width := 4822, length := 5786 }

/-- Counterexample to claim C2 as stated: with `total_target_area = 3000`
and nominal sum `2500`, the scaled width of a room of width 4822 is the
integer 5282, which is not exactly `4822 * sqrt(3000/2500)`: the code
truncates the product to an integer. -/
theorem claim_C2_counterexample :
    ∃ out, scale_step 3000 (sumSqft [c2room]) [c2room] = some out ∧
      ∀ r ∈ out, ((r.width : ℝ)) ≠ (4822 : ℝ) * Real.sqrt ((3000 : ℝ) / 2500) := by
  have hsum : sumSqft [c2room] = 2500 := by norm_num [sumSqft, c2room]
  have hfl : ⌊((4822 : ℚ) * 4822 * (((3000 : ℤ) : ℚ))) / 2500⌋ = (27902020 : ℤ) := by
    rw [Int.floor_eq_iff]
    constructor
    · push_cast; norm_num
    · push_cast; norm_num
  have hw : scaledDim 4822 3000 2500 = 5282 := by
    unfold scaledDim
    rw [show ((4822 : ℕ) : ℚ) = (4822 : ℚ) by norm_num] at *
    rw [hfl]
    show Nat.sqrt ((27902020 : ℤ)).toNat = 5282
    rw [show ((27902020 : ℤ)).toNat = 27902020 by decide]
    exact natSqrt_eq_of (by norm_num) (by norm_num)
  have hstep : scale_step 3000 (sumSqft [c2room]) [c2room] =
      some ([c2room].map fun r =>
        { r with width := scaledDim r.width 3000 2500,
                 length := scaledDim r.length 3000 2500 }) := by
    unfold scale_step
    rw [hsum, if_pos (by norm_num), if_neg (by push_neg; norm_num)]
  refine ⟨_, hstep, ?_⟩
  intro r hr
  simp only [List.map_cons, List.map_nil, List.mem_singleton] at hr
  subst hr
  show ((scaledDim c2room.width 3000 2500 : ℕ) : ℝ) ≠ _
  rw [show c2room.width = 4822 from rfl, hw]
  intro h
  have hsq : Real.sqrt ((3000 : ℝ) / 2500) ^ 2 = (3000 : ℝ) / 2500 :=
    Real.sq_sqrt (by norm_num)
  have h2 := congrArg (fun x : ℝ => x ^ 2) h
  simp only [] at h2
  rw [mul_pow, hsq] at h2
  norm_num at h2

/-- Witness for the amended claim C2: with `total_target_area = 2000` not
exceeding the nominal sum 2500, the scaling step leaves the room list
unchanged. -/
theorem claim_C2_witness :
    scale_step 2000 (sumSqft [c2room]) [c2room] = some [c2room] :=
  (claim_C2_amended 2000 [c2room] (by norm_num [sumSqft, c2room])).2
    (by norm_num [sumSqft, c2room])

/-! ### Claim C3: bathroom inventory counts -/

/-- Python `int()` agrees with the floor on non-negative arguments. -/
theorem pyInt_of_nonneg (q : ℚ) (hq : 0 ≤ q) : pyInt q = ⌊q⌋ := by
  unfold pyInt
  rw [if_neg (not_lt.mpr hq)]

/-- Category counts add over list concatenation. -/
theorem countType_append (a b : List Room) (t : String) :
    countType (a ++ b) t = countType a t + countType b t := by
  unfold countType
  rw [List.filter_append, List.length_append]

/-- Category count of a mapped range whose image is constantly of the
requested category. -/
theorem countType_map_eq (l : List ℕ) (f : ℕ → Room) (t : String)
    (h : ∀ i, (f i).room_type = t) : countType (l.map f) t = l.length := by
  induction l with
  | nil => rfl
  | cons a as ih =>
    unfold countType at *
    simp only [List.map_cons, List.filter_cons, h a, List.length_cons, decide_eq_true_eq,
      if_pos, List.length_cons]
    omega

/-- Category count of a cons cell. -/
theorem countType_cons (r : Room) (l : List Room) (t : String) :
    countType (r :: l) t = (if r.room_type = t then 1 else 0) + countType l t := by
  unfold countType
  rw [List.filter_cons]
  by_cases h : r.room_type = t
  · simp [h, Nat.add_comm]
  · simp [h]

/-- Category count vanishes when no member is of the requested category. -/
theorem countType_eq_zero (l : List Room) (t : String)
    (h : ∀ r ∈ l, r.room_type ≠ t) : countType l t = 0 := by
  unfold countType
  rw [List.length_eq_zero]
  apply List.filter_eq_nil.mpr
  intro r hr
  simp only [decide_eq_true_eq]
  exact h r hr

/-- Claim C3: the Builder emits exactly one master bathroom (1 window); a
jack-and-jill bathroom iff requested and `floor(b) - 1 > 0`; exactly
`max(floor(b) - 1 - j, 0)` numbered bathrooms; and a powder room
(0 windows) iff the fractional part of `b` is at least one half. -/
theorem claim_C3 (b : ℚ) (hb : 0 ≤ b) (types : List String) :
    countType (add_bathrooms b types) ("master_bathroom") = 1 ∧
    countType (add_bathrooms b types) ("jack_and_jill_bathroom") =
      (if "jack_and_jill" ∈ types ∧ 0 < ⌊b⌋ - 1 then 1 else 0) ∧
    countType (add_bathrooms b types) ("bathroom") =
      ((⌊b⌋ - 1) - (if "jack_and_jill" ∈ types ∧ 0 < ⌊b⌋ - 1 then 1 else 0)).toNat ∧
    countType (add_bathrooms b types) ("half_bathroom") =
      (if (1 : ℚ)/2 ≤ b - ⌊b⌋ then 1 else 0) ∧
    (∀ r ∈ add_bathrooms b types, r.room_type = "master_bathroom" → r.windows = 1) ∧
    (∀ r ∈ add_bathrooms b types, r.room_type = "half_bathroom" → r.windows = 0) := by
  have hpy : pyInt b = ⌊b⌋ := pyInt_of_nonneg b hb
  have hJLz : ∀ t : String, t ≠ "jack_and_jill_bathroom" →
      countType (if "jack_and_jill" ∈ types ∧ 0 < ⌊b⌋ - 1 then
        [{ name := "Jack and Jill Bathroom", sqft := 80,
           room_type := "jack_and_jill_bathroom", windows := 1 }]
      else []) t = 0 := by
    intro t ht
    split
    · apply countType_eq_zero
      intro r hr
      simp only [List.mem_singleton] at hr
      subst hr
      simpa using fun h => ht h.symm
    · rfl
  have hBRz : ∀ (m : ℕ) (t : String), t ≠ "bathroom" →
      countType ((List.range m).map fun i =>
        ({ name := "Bathroom " ++ toString (i + 2), sqft := 40,
           room_type := "bathroom", windows := 1 } : Room)) t = 0 := by
    intro m t ht
    apply countType_eq_zero
    intro r hr
    simp only [List.mem_map, List.mem_range] at hr
    obtain ⟨i, _, rfl⟩ := hr
    simpa using fun h => ht h.symm
  have hHBz : ∀ (m : ℕ) (t : String), t ≠ "half_bathroom" →
      countType ((List.range m).map fun _ =>
        ({ name := "Powder Room", sqft := 25,
           room_type := "half_bathroom", windows := 0 } : Room)) t = 0 := by
    intro m t ht
    apply countType_eq_zero
    intro r hr
    simp only [List.mem_map, List.mem_range] at hr
    obtain ⟨i, _, rfl⟩ := hr
    simpa using fun h => ht h.symm
  have hBRn : ∀ m : ℕ, countType ((List.range m).map fun i =>
      ({ name := "Bathroom " ++ toString (i + 2), sqft := 40,
         room_type := "bathroom", windows := 1 } : Room)) ("bathroom") = m := by
    intro m
    rw [countType_map_eq (List.range m) _ ("bathroom") (fun i => rfl), List.length_range]
  have hHBn : ∀ m : ℕ, countType ((List.range m).map fun _ =>
      ({ name := "Powder Room", sqft := 25,
         room_type := "half_bathroom", windows := 0 } : Room)) ("half_bathroom") = m := by
    intro m
    rw [countType_map_eq (List.range m) _ ("half_bathroom") (fun i => rfl), List.length_range]
  refine ⟨?_, ?_, ?_, ?_, ?_, ?_⟩
  · simp only [add_bathrooms, hpy]
    rw [countType_cons, countType_append, countType_append,
      hJLz _ (by decide), hBRz _ _ (by decide), hHBz _ _ (by decide)]
    rw [if_pos rfl]
  · by_cases hc : "jack_and_jill" ∈ types ∧ 0 < ⌊b⌋ - 1
    · simp only [add_bathrooms, hpy, if_pos hc]
      rw [countType_cons, countType_append, countType_append,
        hBRz _ _ (by decide), hHBz _ _ (by decide), if_neg (by decide),
        countType_cons, if_pos rfl]
      rfl
    · simp only [add_bathrooms, hpy, if_neg hc]
      rw [countType_cons, countType_append, countType_append,
        hBRz _ _ (by decide), hHBz _ _ (by decide), if_neg (by decide)]
      rfl
  · by_cases hc : "jack_and_jill" ∈ types ∧ 0 < ⌊b⌋ - 1
    · simp only [add_bathrooms, hpy, if_pos hc]
      rw [countType_cons, countType_append, countType_append,
        hHBz _ _ (by decide), if_neg (by decide), hBRn,
        countType_cons, if_neg (by decide)]
      simp [countType]
    · simp only [add_bathrooms, hpy, if_neg hc]
      rw [countType_cons, countType_append, countType_append,
        hHBz _ _ (by decide), if_neg (by decide), hBRn]
      simp [countType]
  · by_cases hhalf : (1 : ℚ)/2 ≤ b - ⌊b⌋
    · simp only [add_bathrooms, hpy, if_pos hhalf]
      rw [countType_cons, countType_append, countType_append,
        hJLz _ (by decide), hBRz _ _ (by decide), if_neg (by decide), hHBn]
    · simp only [add_bathrooms, hpy, if_neg hhalf]
      rw [countType_cons, countType_append, countType_append,
        hJLz _ (by decide), hBRz _ _ (by decide), if_neg (by decide), hHBn]
  · intro r hr
    simp only [add_bathrooms, hpy, List.mem_cons, List.mem_append] at hr
    rcases hr with rfl | hr
    · exact fun _ => rfl
    rcases hr with (hr | hr) | hr
    · split at hr
      · simp only [List.mem_singleton] at hr
        subst hr
        exact fun h => absurd h (by decide)
      · exact absurd hr (List.not_mem_nil r)
    · simp only [List.mem_map, List.mem_range] at hr
      obtain ⟨i, _, rfl⟩ := hr
      exact fun h => absurd (show ("bathroom" : String) = "master_bathroom" from h) (by decide)
    · simp only [List.mem_map, List.mem_range] at hr
      obtain ⟨i, _, rfl⟩ := hr
      exact fun h => absurd (show ("half_bathroom" : String) = "master_bathroom" from h) (by decide)
  · intro r hr
    simp only [add_bathrooms, hpy, List.mem_cons, List.mem_append] at hr
    rcases hr with rfl | hr
    · exact fun h => absurd h (by decide)
    rcases hr with (hr | hr) | hr
    · split at hr
      · simp only [List.mem_singleton] at hr
        subst hr
        exact fun h => absurd h (by decide)
      · exact absurd hr (List.not_mem_nil r)
    · simp only [List.mem_map, List.mem_range] at hr
      obtain ⟨i, _, rfl⟩ := hr
      exact fun h => absurd (show ("bathroom" : String) = "half_bathroom" from h) (by decide)
    · simp only [List.mem_map, List.mem_range] at hr
      obtain ⟨i, _, rfl⟩ := hr
      exact fun _ => rfl

/-- Witness for claim C3 at `bathroom_count = 2.5` with no bathroom type
tags: one master bathroom, no jack-and-jill, one numbered bathroom, one
powder room. -/
theorem claim_C3_witness :
    countType (add_bathrooms (5/2) []) ("master_bathroom") = 1 ∧
    countType (add_bathrooms (5/2) []) ("jack_and_jill_bathroom") = 0 ∧
    countType (add_bathrooms (5/2) []) ("bathroom") = 1 ∧
    countType (add_bathrooms (5/2) []) ("half_bathroom") = 1 := by
  obtain ⟨h1, h2, h3, h4, -, -⟩ := claim_C3 (5/2) (by norm_num) []
  have hfl : ⌊(5/2 : ℚ)⌋ = 2 := by norm_num
  rw [hfl] at h2 h3 h4
  refine ⟨h1, ?_, ?_, ?_⟩
  · rw [h2, if_neg (by simp)]
  · rw [h3, if_neg (by simp)]
    decide
  · rw [h4, if_pos (by norm_num)]

/-! ### Claim C4: shelf packing places rooms without overlap -/

/-- Every room placed by `packAux` either sits in the current row (at or
beyond the cursor) or in a strictly lower later row. -/
theorem packAux_mem_cases (maxW : ℕ) : ∀ (rs : List Room) (cx cy rh : ℕ),
    ∀ p ∈ packAux maxW rs cx cy rh, (p.y = cy ∧ cx ≤ p.x) ∨ cy < p.y := by
  intro rs
  induction rs with
  | nil =>
    intro cx cy rh p hp
    simp [packAux] at hp
  | cons r rs ih =>
    intro cx cy rh p hp
    simp only [packAux] at hp
    split at hp
    · rcases List.mem_cons.mp hp with rfl | hp2
      · right
        show cy < cy + rh + 200
        omega
      · rcases ih _ _ _ p hp2 with ⟨hy, _⟩ | hlt
        · right; omega
        · right; omega
    · rcases List.mem_cons.mp hp with rfl | hp2
      · left
        exact ⟨rfl, le_refl cx⟩
      · rcases ih _ _ _ p hp2 with ⟨hy, hx⟩ | hlt
        · left
          exact ⟨hy, by omega⟩
        · right; exact hlt

/-- Two rooms that `packAux` places in the same row are separated by at
least the room length plus the 200 mm wall gap. -/
theorem packAux_pairwise (maxW : ℕ) : ∀ (rs : List Room) (cx cy rh : ℕ),
    List.Pairwise (fun p q => p.y = q.y → p.x + p.length + 200 ≤ q.x)
      (packAux maxW rs cx cy rh) := by
  intro rs
  induction rs with
  | nil =>
    intro cx cy rh
    simp [packAux]
  | cons r rs ih =>
    intro cx cy rh
    simp only [packAux]
    split
    · refine List.Pairwise.cons ?_ (ih _ _ _)
      intro q hq hy
      rcases packAux_mem_cases maxW rs (r.length + 200) (cy + rh + 200) r.width q hq with
        ⟨_, hqx⟩ | hlt
      · show 0 + r.length + 200 ≤ q.x
        omega
      · exfalso
        have hy2 : cy + rh + 200 = q.y := hy
        omega
    · refine List.Pairwise.cons ?_ (ih _ _ _)
      intro q hq hy
      rcases packAux_mem_cases maxW rs (cx + r.length + 200) cy (max rh r.width) q hq with
        ⟨_, hqx⟩ | hlt
      · show cx + r.length + 200 ≤ q.x
        omega
      · exfalso
        have hy2 : cy = q.y := hy
        omega

/-- Claim C4: for every list of rooms of positive width and length, after
packing every room has non-negative coordinates, and no two distinct rooms
with the same `y` have overlapping x-extents. -/
theorem claim_C4 (maxW : ℕ) (rooms : List Room)
    (hdim : ∀ r ∈ rooms, 0 < r.width ∧ 0 < r.length) :
    (∀ p ∈ packRooms maxW rooms, 0 ≤ p.x ∧ 0 ≤ p.y) ∧
    List.Pairwise (fun p q => p.y = q.y →
      p.x + p.length ≤ q.x ∨ q.x + q.length ≤ p.x) (packRooms maxW rooms) := by
  constructor
  · intro p _
    exact ⟨Nat.zero_le _, Nat.zero_le _⟩
  · exact (packAux_pairwise maxW rooms 0 0 0).imp
      (fun h hy => Or.inl (by have := h hy; omega))

/-- Witness for claim C4 on a concrete two-room list. -/
theorem claim_C4_witness :
    (∀ p ∈ packRooms 10000
        [{ name := "A", sqft := 100, room_type := "den", width := 3000, length := 4000 },
         { name := "B", sqft := 100, room_type := "den", width := 2000, length := 9000 }],
      0 ≤ p.x ∧ 0 ≤ p.y) ∧
    List.Pairwise (fun p q => p.y = q.y →
      p.x + p.length ≤ q.x ∨ q.x + q.length ≤ p.x)
      (packRooms 10000
        [{ name := "A", sqft := 100, room_type := "den", width := 3000, length := 4000 },
         { name := "B", sqft := 100, room_type := "den", width := 2000, length := 9000 }]) :=
  claim_C4 10000
    [{ name := "A", sqft := 100, room_type := "den", width := 3000, length := 4000 },
     { name := "B", sqft := 100, room_type := "den", width := 2000, length := 9000 }]
    (by decide)

/-! ### Claims C6, C7 and C9 -/

/-- The packing loop always terminates and places every room it was
given, whatever the dimensions. -/
theorem packAux_length (maxW : ℕ) : ∀ (rs : List Room) (cx cy rh : ℕ),
    (packAux maxW rs cx cy rh).length = rs.length := by
  intro rs
  induction rs with
  | nil =>
    intro cx cy rh
    simp [packAux]
  | cons r rs ih =>
    intro cx cy rh
    simp only [packAux]
    split <;> simp [ih]

/-- Counterexample to claim C6 as stated: on `target_area = 0` the width
computation yields 0 and the length computation `int(area_mm2 / width)`
divides by zero, so the Dimension Calculator raises (modelled by `none`)
instead of completing with `width = length = 0`. -/
theorem claim_C6_counterexample : calcDims 0 (roomAspect ("bedroom")) = none := by
  norm_num [calcDims, roomAspect, Nat.sqrt_zero]

/-- Claim C6, amended: a room of `target_area = 0` makes the Dimension
Calculator divide by zero (an error, for every category); packing genuinely
zero-extent rooms terminates, placing every room, without error. -/
theorem claim_C6_amended :
    (∀ c : String, calcDims 0 (roomAspect c) = none) ∧
    (∀ (maxW : ℕ) (rooms : List Room), (∀ r ∈ rooms, r.width = 0 ∧ r.length = 0) →
      (packRooms maxW rooms).length = rooms.length) := by
  constructor
  · intro c
    norm_num [calcDims, Nat.sqrt_zero]
  · intro maxW rooms _
    exact packAux_length maxW rooms 0 0 0

/-- Witness for the amended claim C6: the kitchen category errors at zero
area, and packing one zero-extent room places exactly one room. -/
theorem claim_C6_witness :
    calcDims 0 (roomAspect ("kitchen")) = none ∧
    (packRooms 100
      [{ name := "Z", sqft := 0, room_type := "den", width := 0, length := 0 }]).length
      = 1 :=
  ⟨claim_C6_amended.1 ("kitchen"),
   claim_C6_amended.2 100
     [{ name := "Z", sqft := 0, room_type := "den", width := 0, length := 0 }]
     (by decide)⟩

/-- Maximum of a non-empty list of naturals is attained. -/
theorem listMax_mem : ∀ (l : List ℕ), l ≠ [] → listMax l ∈ l := by
  intro l
  induction l with
  | nil => intro h; exact absurd rfl h
  | cons a as ih =>
    intro _
    by_cases has : as = []
    · subst has
      simp [listMax]
    · rcases le_total a (listMax as) with hle | hle
      · have : listMax (a :: as) = listMax as := by
          simp [listMax, List.foldr] at *
          omega
        rw [this]
        exact List.mem_cons_of_mem a (ih has)
      · have : listMax (a :: as) = a := by
          simp [listMax, List.foldr] at *
          omega
        rw [this]
        exact List.mem_cons_self a as
  
/-- Every element is bounded by the list maximum. -/
theorem listMax_ge : ∀ (l : List ℕ), ∀ a ∈ l, a ≤ listMax l := by
  intro l
  induction l with
  | nil => intro a ha; exact absurd ha (List.not_mem_nil a)
  | cons b bs ih =>
    intro a ha
    rcases List.mem_cons.mp ha with rfl | ha2
    · simp [listMax, List.foldr]
    · have := ih a ha2
      simp [listMax, List.foldr] at *
      omega

/-- Claim C7: the footprint query returns `(10000, 8000)` on an empty room
list, and otherwise exactly the maximal extents plus the fixed 1000 mm
margin in each axis. -/
theorem claim_C7 :
    get_house_dimensions [] = (10000, 8000) ∧
    ∀ rooms : List Room, rooms ≠ [] →
      ((∃ r ∈ rooms, (get_house_dimensions rooms).1 = r.x + r.length + 1000) ∧
       (∀ r ∈ rooms, r.x + r.length + 1000 ≤ (get_house_dimensions rooms).1) ∧
       (∃ r ∈ rooms, (get_house_dimensions rooms).2 = r.y + r.width + 1000) ∧
       (∀ r ∈ rooms, r.y + r.width + 1000 ≤ (get_house_dimensions rooms).2)) := by
  constructor
  · rfl
  · intro rooms hne
    have hemp : rooms.isEmpty = false := by
      cases rooms with
      | nil => exact absurd rfl hne
      | cons a as => rfl
    have hmap1 : rooms.map (fun r => r.x + r.length) ≠ [] := by
      cases rooms with
      | nil => exact absurd rfl hne
      | cons a as => simp
    have hmap2 : rooms.map (fun r => r.y + r.width) ≠ [] := by
      cases rooms with
      | nil => exact absurd rfl hne
      | cons a as => simp
    unfold get_house_dimensions
    rw [hemp]
    simp only [Bool.false_eq_true, if_false]
    refine ⟨?_, ?_, ?_, ?_⟩
    · obtain ⟨r, hr, hval⟩ := List.mem_map.mp (listMax_mem _ hmap1)
      exact ⟨r, hr, by rw [← hval]⟩
    · intro r hr
      have := listMax_ge (rooms.map fun r => r.x + r.length) _
        (List.mem_map.mpr ⟨r, hr, rfl⟩)
      omega
    · obtain ⟨r, hr, hval⟩ := List.mem_map.mp (listMax_mem _ hmap2)
      exact ⟨r, hr, by rw [← hval]⟩
    · intro r hr
      have := listMax_ge (rooms.map fun r => r.y + r.width) _
        (List.mem_map.mpr ⟨r, hr, rfl⟩)
      omega

/-- Room used by the witness for claim C7. -/
def c7room : Room :=
  { name := "A", sqft := 100, room_type := "den", x := 40, y := 30,
    width := 20, length := 10, windows := 0 }

/-- Witness for claim C7 on a concrete one-room list. -/
theorem claim_C7_witness :
    (∃ r ∈ [c7room], (get_house_dimensions [c7room]).1 = r.x + r.length + 1000) ∧
    (∀ r ∈ [c7room], r.x + r.length + 1000 ≤ (get_house_dimensions [c7room]).1) ∧
    (∃ r ∈ [c7room], (get_house_dimensions [c7room]).2 = r.y + r.width + 1000) ∧
    (∀ r ∈ [c7room], r.y + r.width + 1000 ≤ (get_house_dimensions [c7room]).2) :=
  claim_C7.2 [c7room] (by decide)

/-- Claim C9: generation is deterministic, a pure function of the
requirements record; equal inputs give equal room sequences in every
field.  The embedding is a function because the source uses no randomness,
time, or I/O. -/
theorem claim_C9 (r1 r2 : HouseRequirements) (h : r1 = r2) :
    generate_floor_plan r1 = generate_floor_plan r2 :=
  congrArg generate_floor_plan h

/-- Witness for claim C9 at the default requirements record. -/
theorem claim_C9_witness :
    generate_floor_plan defaultRequirements = generate_floor_plan defaultRequirements :=
  claim_C9 defaultRequirements defaultRequirements rfl

/-! ### Inventory facts shared by claims C5 and C10 -/

/-- Every catalog area is at least 25 sqft. -/
theorem room_sizes_ge (t : String) (v : ℕ) (h : room_sizes t = some v) : 25 ≤ v := by
  unfold room_sizes at h
  split at h <;> simp_all <;> omega

/-- Nominal sum of the empty list. -/
theorem sumSqft_nil : sumSqft [] = 0 := rfl

/-- Nominal sum of a cons cell. -/
theorem sumSqft_cons (r : Room) (l : List Room) :
    sumSqft (r :: l) = r.sqft + sumSqft l := by
  simp [sumSqft]

/-- Nominal sum over concatenation. -/
theorem sumSqft_append (a b : List Room) :
    sumSqft (a ++ b) = sumSqft a + sumSqft b := by
  simp [sumSqft]

/-- Nominal sum of rooms of area at least one is non-negative. -/
theorem sumSqft_nonneg (l : List Room) (h : ∀ r ∈ l, 1 ≤ r.sqft) :
    0 ≤ sumSqft l := by
  unfold sumSqft
  apply List.sum_nonneg
  intro x hx
  obtain ⟨r, hr, rfl⟩ := List.mem_map.mp hx
  linarith [h r hr]

/-- Every bedroom-builder room has area at least one. -/
theorem add_bedrooms_mem (k : ℤ) : ∀ r ∈ add_bedrooms k, 1 ≤ r.sqft := by
  intro r hr
  simp only [add_bedrooms, List.mem_cons, List.mem_map, List.mem_range] at hr
  rcases hr with rfl | ⟨i, _, rfl⟩
  · norm_num
  · norm_num

/-- Every bathroom-builder room has area at least one. -/
theorem add_bathrooms_mem (b : ℚ) (types : List String) :
    ∀ r ∈ add_bathrooms b types, 1 ≤ r.sqft := by
  intro r hr
  simp only [add_bathrooms, List.mem_cons, List.mem_append] at hr
  rcases hr with rfl | hr
  · norm_num
  rcases hr with (hr | hr) | hr
  · split at hr
    · simp only [List.mem_singleton] at hr
      subst hr
      norm_num
    · exact absurd hr (List.not_mem_nil r)
  · simp only [List.mem_map, List.mem_range] at hr
    obtain ⟨i, _, rfl⟩ := hr
    norm_num
  · simp only [List.mem_map, List.mem_range] at hr
    obtain ⟨i, _, rfl⟩ := hr
    norm_num

/-- Every kitchen-builder room has area at least one. -/
theorem add_kitchen_mem : ∀ r ∈ add_kitchen, 1 ≤ r.sqft := by
  intro r hr
  simp only [add_kitchen, List.mem_cons, List.not_mem_nil, or_false] at hr
  rcases hr with rfl | rfl <;> norm_num

/-- Every living-area room has area at least one. -/
theorem add_living_areas_mem : ∀ r ∈ add_living_areas, 1 ≤ r.sqft := by
  intro r hr
  simp only [add_living_areas, List.mem_singleton] at hr
  subst hr
  norm_num

/-- Every garage room has area at least one. -/
theorem add_garage_mem (g : ℤ) : ∀ r ∈ add_garage g, 1 ≤ r.sqft := by
  intro r hr
  unfold add_garage at hr
  split at hr
  · simp only [List.mem_singleton] at hr
    subst hr
    show (1 : ℚ) ≤ ((250 * g : ℤ) : ℚ)
    have : (1 : ℤ) ≤ 250 * g := by omega
    exact_mod_cast this
  · exact absurd hr (List.not_mem_nil r)

/-- Every special room has area at least one. -/
theorem add_special_rooms_mem (s : List String) :
    ∀ r ∈ add_special_rooms s, 1 ≤ r.sqft := by
  intro r hr
  unfold add_special_rooms at hr
  obtain ⟨t, _, hmap⟩ := List.mem_filterMap.mp hr
  cases hsz : room_sizes t with
  | none =>
    rw [hsz] at hmap
    exact Option.noConfusion hmap
  | some v =>
    rw [hsz] at hmap
    have h25 := room_sizes_ge t v hsz
    injection hmap with hmap
    rw [← hmap]
    show (1 : ℚ) ≤ ((v : ℕ) : ℚ)
    exact_mod_cast by omega

/-- Every circulation room has area at least one. -/
theorem add_circulation_spaces_mem (k : ℤ) :
    ∀ r ∈ add_circulation_spaces k, 1 ≤ r.sqft := by
  intro r hr
  simp only [add_circulation_spaces, List.mem_cons] at hr
  rcases hr with rfl | hr
  · norm_num
  · split at hr
    · simp only [List.mem_singleton] at hr
      subst hr
      norm_num
    · exact absurd hr (List.not_mem_nil r)

/-- Every inventory room has area at least one. -/
theorem inventory_mem_ge (req : HouseRequirements) :
    ∀ r ∈ buildInventory req, 1 ≤ r.sqft := by
  intro r hr
  unfold buildInventory at hr
  simp only [List.mem_append] at hr
  rcases hr with ((((((hr | hr) | hr) | hr) | hr) | hr) | hr)
  · exact add_bedrooms_mem _ r hr
  · exact add_bathrooms_mem _ _ r hr
  · exact add_kitchen_mem r hr
  · exact add_living_areas_mem r hr
  · exact add_garage_mem _ r hr
  · exact add_special_rooms_mem _ r hr
  · exact add_circulation_spaces_mem _ r hr

/-- The inventory is never empty. -/
theorem inventory_ne_nil (req : HouseRequirements) : buildInventory req ≠ [] := by
  simp [buildInventory, add_bedrooms]

/-- The nominal sum of the inventory is at least 1130 sqft. -/
theorem inventory_sum_ge (req : HouseRequirements) :
    1130 ≤ sumSqft (buildInventory req) := by
  have h1 : (300 : ℚ) ≤ sumSqft (add_bedrooms req.bedrooms) := by
    unfold add_bedrooms
    rw [sumSqft_cons]
    have := sumSqft_nonneg ((List.range (req.bedrooms - 1).toNat).map fun i =>
      { name := "Bedroom " ++ toString (i + 2), sqft := 150,
        room_type := "bedroom", windows := 1 }) (by
        intro r hr
        simp only [List.mem_map, List.mem_range] at hr
        obtain ⟨i, _, rfl⟩ := hr
        norm_num)
    show (300 : ℚ) ≤ 300 + _
    linarith
  have h2 : (100 : ℚ) ≤ sumSqft (add_bathrooms req.bathrooms req.bathroom_types) := by
    have hmem := add_bathrooms_mem req.bathrooms req.bathroom_types
    simp only [add_bathrooms] at hmem ⊢
    rw [sumSqft_cons]
    have := sumSqft_nonneg _ (fun r hr => hmem r (List.mem_cons_of_mem _ hr))
    show (100 : ℚ) ≤ 100 + _
    linarith
  have h3 : sumSqft add_kitchen = 350 := by
    norm_num [add_kitchen, sumSqft]
  have h4 : sumSqft add_living_areas = 300 := by
    norm_num [add_living_areas, sumSqft]
  have h5 : (0 : ℚ) ≤ sumSqft (add_garage req.garage_cars) :=
    sumSqft_nonneg _ (add_garage_mem req.garage_cars)
  have h6 : (0 : ℚ) ≤ sumSqft (add_special_rooms req.special_rooms) :=
    sumSqft_nonneg _ (add_special_rooms_mem req.special_rooms)
  have h7 : (80 : ℚ) ≤ sumSqft (add_circulation_spaces req.bedrooms) := by
    have hmem := add_circulation_spaces_mem req.bedrooms
    simp only [add_circulation_spaces] at hmem ⊢
    rw [sumSqft_cons]
    have := sumSqft_nonneg _ (fun r hr => hmem r (List.mem_cons_of_mem _ hr))
    show (80 : ℚ) ≤ 80 + _
    linarith
  unfold buildInventory
  rw [sumSqft_append, sumSqft_append, sumSqft_append, sumSqft_append,
    sumSqft_append, sumSqft_append]
  linarith

/-- The Dimension Calculator succeeds on every room of area at least one
square foot. -/
theorem calcDims_some (q : ℚ) (hq : 1 ≤ q) (c : String) :
    ∃ w l : ℕ, calcDims q (roomAspect c) = some (w, l) := by
  have har := roomAspect_pos c
  have har3 := roomAspect_le_three c
  set ar := roomAspect c
  set A : ℚ := q * sqft_to_mm2 with hA
  have hAge : sqft_to_mm2 ≤ A := by
    rw [hA]
    nlinarith [show (0 : ℚ) < sqft_to_mm2 by norm_num [sqft_to_mm2]]
  have hApos : 0 < A := lt_of_lt_of_le (by norm_num [sqft_to_mm2]) hAge
  have hq_ge : (1 : ℚ) ≤ A / ar := by
    rw [le_div_iff₀ har]
    have h2 : (3 : ℚ) ≤ sqft_to_mm2 := by norm_num [sqft_to_mm2]
    nlinarith
  have hqpos : 0 < A / ar := lt_of_lt_of_le one_pos hq_ge
  have hfl1 : (1 : ℤ) ≤ ⌊A / ar⌋ := Int.le_floor.mpr (by exact_mod_cast hq_ge)
  have hw : 0 < Nat.sqrt ((⌊A / ar⌋).toNat) := Nat.le_sqrt.mpr (by omega)
  refine ⟨Nat.sqrt ((⌊A / ar⌋).toNat),
    (⌊A / ((Nat.sqrt ((⌊A / ar⌋).toNat) : ℚ))⌋).toNat, ?_⟩
  unfold calcDims
  rw [← hA, if_neg (by push_neg; exact le_of_lt hqpos), if_neg (by omega)]

/-- The per-room dimension pass succeeds and preserves the nominal area. -/
theorem calcRoom_some (r : Room) (h : 1 ≤ r.sqft) :
    ∃ r2, calcRoom r = some r2 ∧ r2.sqft = r.sqft := by
  obtain ⟨w, l, heq⟩ := calcDims_some r.sqft h r.room_type
  refine ⟨{ r with width := w, length := l }, ?_, rfl⟩
  unfold calcRoom
  rw [heq]
  rfl

/-- The dimension pass succeeds on a list of rooms of area at least one,
preserving length and nominal sum. -/
theorem calc_all (l : List Room) (h : ∀ r ∈ l, 1 ≤ r.sqft) :
    ∃ l2, calculate_room_dimensions l = some l2 ∧
      l2.length = l.length ∧ sumSqft l2 = sumSqft l := by
  induction l with
  | nil => exact ⟨[], rfl, rfl, rfl⟩
  | cons r rs ih =>
    obtain ⟨r2, hr2, hsq⟩ := calcRoom_some r (h r (List.mem_cons_self r rs))
    obtain ⟨l2, hl2, hlen, hsum⟩ := ih (fun x hx => h x (List.mem_cons_of_mem _ hx))
    refine ⟨r2 :: l2, ?_, ?_, ?_⟩
    · simp [calculate_room_dimensions, hr2, hl2]
    · simp [hlen]
    · rw [sumSqft_cons, sumSqft_cons, hsq, hsum]

/-- The packer succeeds whenever the nominal total is positive and the
requested total square footage is non-negative, preserving the number of
rooms. -/
theorem arrange_some (t : ℤ) (ht : 0 ≤ t) (l : List Room) (hpos : 0 < sumSqft l) :
    ∃ out, arrange_rooms t l = some out ∧ out.length = l.length := by
  have hne : l ≠ [] := by
    intro hl
    subst hl
    rw [sumSqft_nil] at hpos
    exact lt_irrefl 0 hpos
  have hemp : l.isEmpty = false := by
    cases l with
    | nil => exact absurd rfl hne
    | cons a as => rfl
  have htq : (0 : ℚ) ≤ ((t : ℤ) : ℚ) := by exact_mod_cast ht
  have hmw : maxRowWidth t =
      some (Nat.sqrt (⌊(169/100 : ℚ) * (((t : ℤ) : ℚ) * sqft_to_mm2)⌋).toNat) := by
    unfold maxRowWidth
    rw [if_neg]
    push_neg
    have : (0 : ℚ) < sqft_to_mm2 := by norm_num [sqft_to_mm2]
    positivity
  unfold arrange_rooms
  rw [hemp]
  simp only [Bool.false_eq_true, if_false]
  by_cases hlt : sumSqft l < ((t : ℤ) : ℚ)
  · have hscale : scale_step t (sumSqft l) (sortRooms l) =
        some ((sortRooms l).map fun r =>
          { r with width := scaledDim r.width t (sumSqft l),
                   length := scaledDim r.length t (sumSqft l) }) := by
      unfold scale_step
      rw [if_pos hlt, if_neg]
      push_neg
      exact ⟨ne_of_gt hpos, div_nonneg htq (le_of_lt hpos)⟩
    rw [hscale, Option.some_bind, hmw]
    refine ⟨_, rfl, ?_⟩
    simp only [packRooms]
    rw [packAux_length, List.length_map]
    unfold sortRooms
    rw [List.length_insertionSort]
  · have hscale : scale_step t (sumSqft l) (sortRooms l) = some (sortRooms l) := by
      unfold scale_step
      rw [if_neg hlt]
    rw [hscale, Option.some_bind, hmw]
    refine ⟨_, rfl, ?_⟩
    simp only [packRooms]
    rw [packAux_length]
    unfold sortRooms
    rw [List.length_insertionSort]

/-- The full pipeline succeeds on any non-negative requested total square
footage, producing as many rooms as the inventory. -/
theorem generate_some (req : HouseRequirements) (h0 : 0 ≤ req.total_sqft) :
    ∃ out, generate_floor_plan req = some out ∧
      out.length = (buildInventory req).length := by
  obtain ⟨l2, hcalc, hlen, hsum⟩ := calc_all (buildInventory req) (inventory_mem_ge req)
  have hpos : 0 < sumSqft l2 := by
    rw [hsum]
    linarith [inventory_sum_ge req]
  obtain ⟨out, harr, hlen2⟩ := arrange_some req.total_sqft h0 l2 hpos
  refine ⟨out, ?_, by omega⟩
  unfold generate_floor_plan
  rw [hcalc, Option.some_bind, harr]

/-! ### Claims C5 and C10 -/

/-- Claim C5, amended: the pipeline raises no exception for any
requirements record with non-negative total_target_area — negative
bedroom, bathroom and garage counts are clamped to zero iterations — but a
negative total_target_area makes the packer's row-width computation take
the square root of a negative number and raise. -/
theorem claim_C5_amended (req : HouseRequirements) (h0 : 0 ≤ req.total_sqft) :
    ∃ out, generate_floor_plan req = some out := by
  obtain ⟨out, hout, -⟩ := generate_some req h0
  exact ⟨out, hout⟩

/-- Counterexample to claim C5 as stated: with `total_target_area = -100`
(other fields at their defaults) the pipeline raises (modelled by `none`):
`math.sqrt(total_sqft * 92903.04)` is applied to a negative number. -/
theorem claim_C5_counterexample :
    generate_floor_plan { defaultRequirements with total_sqft := -100 } = none := by
  set req : HouseRequirements := { defaultRequirements with total_sqft := -100 } with hreq
  obtain ⟨l2, hcalc, hlen, hsum⟩ := calc_all (buildInventory req) (inventory_mem_ge req)
  have hpos : 0 < sumSqft l2 := by
    rw [hsum]
    linarith [inventory_sum_ge req]
  have hne : l2 ≠ [] := by
    intro h
    subst h
    rw [sumSqft_nil] at hpos
    exact lt_irrefl 0 hpos
  have hemp : l2.isEmpty = false := by
    cases l2 with
    | nil => exact absurd rfl hne
    | cons a as => rfl
  unfold generate_floor_plan
  rw [hcalc, Option.some_bind]
  show arrange_rooms req.total_sqft l2 = none
  have htneg : req.total_sqft = -100 := rfl
  unfold arrange_rooms
  rw [hemp]
  simp only [Bool.false_eq_true, if_false]
  have hscale : scale_step req.total_sqft (sumSqft l2) (sortRooms l2) =
      some (sortRooms l2) := by
    unfold scale_step
    rw [if_neg]
    push_neg
    rw [htneg]
    have : ((-100 : ℤ) : ℚ) = -100 := by norm_num
    rw [this]
    linarith
  rw [hscale, Option.some_bind]
  have hmw : maxRowWidth req.total_sqft = none := by
    unfold maxRowWidth
    rw [htneg, if_pos]
    norm_num [sqft_to_mm2]
  rw [hmw]
  rfl

/-- Witness for the amended claim C5 at a record with negative bedroom,
bathroom and garage counts but non-negative total area: the pipeline
completes. -/
theorem claim_C5_witness :
    ∃ out, generate_floor_plan
      { total_sqft := 2000, style := "Ranch", bedrooms := -3, bathrooms := -5/2,
        garage_cars := -2, has_attic := false, has_basement := false,
        special_rooms := [], bathroom_types := [], stories := 1 } = some out :=
  claim_C5_amended
    { total_sqft := 2000, style := "Ranch", bedrooms := -3, bathrooms := -5/2,
      garage_cars := -2, has_attic := false, has_basement := false,
      special_rooms := [], bathroom_types := [], stories := 1 }
    (by decide)

/-- Claim C10: every inventory contains the six unconditional rooms, hence
it is never empty, the nominal sum is at least 1130 sqft and strictly
positive (so the packer's scale division never divides by zero), and after
a successful generation the room list is non-empty, making the footprint
query's empty-list default branch unreachable. -/
theorem claim_C10 (req : HouseRequirements) :
    ("Master Bedroom" ∈ (buildInventory req).map Room.name ∧
     "Master Bathroom" ∈ (buildInventory req).map Room.name ∧
     "Kitchen" ∈ (buildInventory req).map Room.name ∧
     "Dining Room" ∈ (buildInventory req).map Room.name ∧
     "Living Room" ∈ (buildInventory req).map Room.name ∧
     "Foyer" ∈ (buildInventory req).map Room.name) ∧
    buildInventory req ≠ [] ∧
    1130 ≤ sumSqft (buildInventory req) ∧
    0 < sumSqft (buildInventory req) ∧
    (0 ≤ req.total_sqft →
      ∃ out, generate_floor_plan req = some out ∧ out ≠ []) := by
  have hsum := inventory_sum_ge req
  refine ⟨⟨?_, ?_, ?_, ?_, ?_, ?_⟩, inventory_ne_nil req, hsum, by linarith, ?_⟩
  · refine List.mem_map.mpr ⟨{ name := "Master Bedroom", sqft := 300, room_type := "master_bedroom", windows := 2 }, ?_, rfl⟩
    unfold buildInventory
    exact List.mem_append_left _ (List.mem_append_left _ (List.mem_append_left _
      (List.mem_append_left _ (List.mem_append_left _ (List.mem_append_left _
        (List.mem_cons_self _ _))))))
  · refine List.mem_map.mpr ⟨{ name := "Master Bathroom", sqft := 100, room_type := "master_bathroom", windows := 1 }, ?_, rfl⟩
    unfold buildInventory
    refine List.mem_append_left _ (List.mem_append_left _ (List.mem_append_left _
      (List.mem_append_left _ (List.mem_append_left _ (List.mem_append_right _ ?_)))))
    simp only [add_bathrooms]
    exact List.mem_cons_self _ _
  · refine List.mem_map.mpr ⟨{ name := "Kitchen", sqft := 200, room_type := "kitchen", windows := 2 }, ?_, rfl⟩
    unfold buildInventory
    refine List.mem_append_left _ (List.mem_append_left _ (List.mem_append_left _
      (List.mem_append_left _ (List.mem_append_right _ ?_))))
    exact List.mem_cons_self _ _
  · refine List.mem_map.mpr ⟨{ name := "Dining Room", sqft := 150, room_type := "dining_room", windows := 1 }, ?_, rfl⟩
    unfold buildInventory
    refine List.mem_append_left _ (List.mem_append_left _ (List.mem_append_left _
      (List.mem_append_left _ (List.mem_append_right _ ?_))))
    exact List.mem_cons_of_mem _ (List.mem_cons_self _ _)
  · refine List.mem_map.mpr ⟨{ name := "Living Room", sqft := 300, room_type := "living_room", windows := 3 }, ?_, rfl⟩
    unfold buildInventory
    refine List.mem_append_left _ (List.mem_append_left _ (List.mem_append_left _
      (List.mem_append_right _ ?_)))
    exact List.mem_cons_self _ _
  · refine List.mem_map.mpr ⟨{ name := "Foyer", sqft := 80, room_type := "foyer", windows := 0 }, ?_, rfl⟩
    unfold buildInventory
    refine List.mem_append_right _ ?_
    simp only [add_circulation_spaces]
    exact List.mem_cons_self _ _
  · intro h0
    obtain ⟨out, hout, hlen⟩ := generate_some req h0
    refine ⟨out, hout, ?_⟩
    intro hnil
    subst hnil
    have hinv := inventory_ne_nil req
    cases hb : buildInventory req with
    | nil => exact hinv hb
    | cons a as =>
      rw [hb] at hlen
      simp at hlen

/-- Witness for claim C10 at the default requirements record. -/
theorem claim_C10_witness :
    ∃ out, generate_floor_plan defaultRequirements = some out ∧ out ≠ [] :=
  (claim_C10 defaultRequirements).2.2.2.2 (by decide)

/-! ### Claim C8: effect of emission order on the layout -/

/-- Two sorted lists that are permutations of one another and whose keys
are pairwise distinct are equal. -/
theorem sorted_unique : ∀ (l1 l2 : List Room), l1.Perm l2 →
    List.Sorted roomGE l1 → List.Sorted roomGE l2 →
    List.Pairwise (fun a b => a.sqft ≠ b.sqft) l1 → l1 = l2 := by
  intro l1
  induction l1 with
  | nil =>
    intro l2 hp _ _ _
    exact (List.Perm.eq_nil hp.symm).symm
  | cons a t1 ih =>
    intro l2 hp hs1 hs2 hd
    cases l2 with
    | nil => exact absurd hp.eq_nil (by simp)
    | cons b t2 =>
      have hab : a = b := by
        by_contra hne
        have hamem : a ∈ b :: t2 := hp.mem_iff.mp (List.mem_cons_self a t1)
        have hbmem : b ∈ a :: t1 := hp.mem_iff.mpr (List.mem_cons_self b t2)
        have hat2 : a ∈ t2 := by
          rcases List.mem_cons.mp hamem with h | h
          · exact absurd h hne
          · exact h
        have hbt1 : b ∈ t1 := by
          rcases List.mem_cons.mp hbmem with h | h
          · exact absurd h.symm hne
          · exact h
        have h1 : roomGE a b := (List.sorted_cons.mp hs1).1 b hbt1
        have h2 : roomGE b a := (List.sorted_cons.mp hs2).1 a hat2
        have heq : a.sqft = b.sqft := le_antisymm h2 h1
        exact (List.pairwise_cons.mp hd).1 b hbt1 heq
      subst hab
      have hp2 : t1.Perm t2 := hp.cons_inv
      rw [ih t2 hp2 (List.sorted_cons.mp hs1).2 (List.sorted_cons.mp hs2).2
        (List.pairwise_cons.mp hd).2]

/-- Claim C8, amended: when the rooms' nominal target areas are pairwise
distinct, emission order has no effect on the layout — the packer produces
the identical placed sequence for any two emission orders.  (Rooms with
equal target areas can exchange positions: the sort is stable, so ties
keep emission order.) -/
theorem claim_C8_amended (maxW : ℕ) (l1 l2 : List Room) (hperm : l1.Perm l2)
    (hdist : List.Pairwise (fun a b => a.sqft ≠ b.sqft) l1) :
    packRooms maxW (sortRooms l1) = packRooms maxW (sortRooms l2) := by
  have hs1 : List.Sorted roomGE (sortRooms l1) := List.sorted_insertionSort roomGE l1
  have hs2 : List.Sorted roomGE (sortRooms l2) := List.sorted_insertionSort roomGE l2
  have hperm2 : (sortRooms l1).Perm (sortRooms l2) :=
    (List.perm_insertionSort roomGE l1).trans
      (hperm.trans (List.perm_insertionSort roomGE l2).symm)
  have hdist2 : List.Pairwise (fun a b => a.sqft ≠ b.sqft) (sortRooms l1) :=
    ((List.perm_insertionSort roomGE l1).pairwise_iff
      (fun h he => h he.symm)).mpr hdist
  rw [sorted_unique (sortRooms l1) (sortRooms l2) hperm2 hs1 hs2 hdist2]

/-- First room of the counterexample to claim C8 as stated. -/
def c8A : Room :=
  { name := "A", sqft := 150, room_type := "den", width := 3, length := 4 }

/-- Second room of the counterexample: same nominal area, other dims. -/
def c8B : Room :=
  { name := "B", sqft := 150, room_type := "library", width := 5, length := 2 }

/-- Counterexample to claim C8 as stated: the two emission orders of two
rooms with equal target areas are permutations of one another, yet room
"A" is packed at different positions in the two runs (the sort is stable,
so ties follow emission order). -/
theorem claim_C8_counterexample :
    ([c8A, c8B].Perm [c8B, c8A]) ∧
    ¬ (∀ r1 ∈ packRooms 10000 (sortRooms [c8A, c8B]),
       ∀ r2 ∈ packRooms 10000 (sortRooms [c8B, c8A]),
         r1.name = r2.name → r1.x = r2.x ∧ r1.y = r2.y) := by
  constructor
  · exact List.Perm.swap c8B c8A []
  · decide

/-- Witness for the amended claim C8 on two rooms of distinct areas in
both emission orders. -/
theorem claim_C8_witness :
    packRooms 10000 (sortRooms
      [{ name := "P", sqft := 150, room_type := "den", width := 3, length := 4 },
       { name := "Q", sqft := 90, room_type := "library", width := 5, length := 2 }]) =
    packRooms 10000 (sortRooms
      [{ name := "Q", sqft := 90, room_type := "library", width := 5, length := 2 },
       { name := "P", sqft := 150, room_type := "den", width := 3, length := 4 }]) :=
  claim_C8_amended 10000 _ _
    (List.Perm.swap _ _ [])
    (by decide)
